import Mathlib

/-!
Verification of the NEO (near-Earth object) normalization and persistence
layer: a shallow embedding of `normalize.py` (feed extraction, record and
batch normalization) and of the ingestion loop of `database.py` (hazardous
filter, `INSERT OR REPLACE` upsert of asteroid rows, append-only inserts of
diameter and close-approach child rows), together with theorems settling the
spec's claims about them.

Modelling conventions:
- Python floats are modelled as rationals (`ℚ`).
- A numeric field that arrives as a source string is modelled by `NumStr`:
  either a string that denotes a number (`num q`) or one that does not
  (`bad s`); Python's `float(s)` is `pyFloat`, raising `ValueError` (an
  `Except.error`) exactly on `bad` strings.
- A Python dict key that the code reads with `d[k]` (raising `KeyError` when
  absent) is an `Option` field read through `req`; a key read with
  `d.get(k)` or `d.get(k, default)` is an `Option` field read directly.
- A Python dict literal such as `estimated_diameter` whose keys are iterated
  is an insertion-ordered association list.
- Exceptions abort the surrounding computation, so every fallible function
  returns `Except String α`; the SQLite script crashes before `conn.commit()`
  when an exception escapes, so an `Except.error` result of the ingestion
  leaves no partial state visible, matching the all-or-nothing `Except`
  model.
-/

/-- A source numeric string: either it denotes a number or it fails to parse
(e.g. the string values of `relative_velocity` and `miss_distance`). -/
inductive NumStr where
  | num (q : ℚ)
  | bad (s : String)
deriving DecidableEq, Repr

/-- Python `float(s)` on a source string: the parsed value, or a
`ValueError` when the string does not denote a number. -/
def pyFloat : NumStr → Except String ℚ
  | .num q => .ok q
  | .bad s => .error ("ValueError: could not convert string to float: " ++ s)

/-- Python `d[k]` on an optional field: the value, or a `KeyError` when the
key is absent. -/
def req {α : Type} (o : Option α) (k : String) : Except String α :=
  match o with
  | some v => .ok v
  | none => .error ("KeyError: " ++ k)

/-- Python `int(b)` on a boolean. -/
def pyInt (b : Bool) : Int := if b then 1 else 0

/-- One unit entry of the `estimated_diameter` block
(`estimated_diameter_min` / `estimated_diameter_max`). -/
structure DiameterEntry where
  estimated_diameter_min : ℚ
  estimated_diameter_max : ℚ
deriving DecidableEq, Repr

/-- The `relative_velocity` block of a close-approach entry; its three keys
are always read with `[]` in the source. -/
structure RelVelocity where
  kilometers_per_second : NumStr
  kilometers_per_hour : NumStr
  miles_per_hour : NumStr
deriving DecidableEq, Repr

/-- The `miss_distance` block of a close-approach entry. -/
structure MissDistance where
  astronomical : NumStr
  lunar : NumStr
  kilometers : NumStr
  miles : NumStr
deriving DecidableEq, Repr

/-- One entry of the raw `close_approach_data` list. `Option` fields model
keys the source may find absent. -/
structure RawApproach where
  close_approach_date : Option String
  close_approach_date_full : Option String
  epoch_date_close_approach : Option Int
  relative_velocity : Option RelVelocity
  miss_distance : Option MissDistance
  orbiting_body : Option String
deriving DecidableEq, Repr

/-- One raw asteroid record from the NEO API. The `estimated_diameter` block
is an insertion-ordered association list from unit label to entry, as the
ingestion loop iterates `estimated_diameter.items()` generically. -/
structure RawRecord where
  id : Option String
  neo_reference_id : Option String
  name : Option String
  nasa_jpl_url : Option String
  absolute_magnitude_h : Option ℚ
  estimated_diameter : Option (List (String × DiameterEntry))
  is_potentially_hazardous_asteroid : Option Bool
  is_sentry_object : Option Bool
  close_approach_data : Option (List RawApproach)
deriving DecidableEq, Repr

/-- A `/feed` endpoint response: an optional `near_earth_objects` mapping
from grouping key (date) to list of raw records, in insertion order. -/
structure FeedResponse where
  near_earth_objects : Option (List (String × List RawRecord))
deriving DecidableEq, Repr

/-- Python dict indexing on the `estimated_diameter` association list. -/
def lookupUnit : List (String × DiameterEntry) → String → Option DiameterEntry
  | [], _ => none
  | (k, v) :: rest, key => if k = key then some v else lookupUnit rest key

/-- The close-approach summary fields that `normalize_asteroid_data` adds to
its output when the record has at least one close-approach entry. -/
structure NormalizedApproach where
  close_approach_date : Option String
  close_approach_date_full : Option String
  epoch_date_close_approach : Option Int
  relative_velocity_km_s : ℚ
  relative_velocity_km_h : ℚ
  relative_velocity_mph : ℚ
  miss_distance_au : ℚ
  miss_distance_lunar : ℚ
  miss_distance_km : ℚ
  miss_distance_mi : ℚ
  orbiting_body : Option String
deriving DecidableEq, Repr

/-- The flat dictionary produced by `normalize_asteroid_data`. The approach
summary keys are present exactly when `approach` is `some`. -/
structure Normalized where
  id : Option String
  name : Option String
  nasa_jpl_url : Option String
  absolute_magnitude_h : Option ℚ
  estimated_diameter_km_min : ℚ
  estimated_diameter_km_max : ℚ
  estimated_diameter_m_min : ℚ
  estimated_diameter_m_max : ℚ
  estimated_diameter_mi_min : ℚ
  estimated_diameter_mi_max : ℚ
  estimated_diameter_ft_min : ℚ
  estimated_diameter_ft_max : ℚ
  is_potentially_hazardous_asteroid : Option Bool
  is_sentry_object : Option Bool
  approach : Option NormalizedApproach
deriving DecidableEq, Repr

/-- The `# Normalize first close approach data if available` block of
`normalize_asteroid_data`: when `raw_data.get("close_approach_data")` is
truthy (present and non-empty), the summary fields are built from the first
entry, with `float(...)` applied to the velocity and miss-distance strings;
otherwise no summary fields are added. -/
def normalize_approach_summary :
    Option (List RawApproach) → Except String (Option NormalizedApproach)
  | some (ap :: _) => do
    let velocity ← req ap.relative_velocity "relative_velocity"
    let distance ← req ap.miss_distance "miss_distance"
    let vks ← pyFloat velocity.kilometers_per_second
    let vkh ← pyFloat velocity.kilometers_per_hour
    let vmh ← pyFloat velocity.miles_per_hour
    let dau ← pyFloat distance.astronomical
    let dlu ← pyFloat distance.lunar
    let dkm ← pyFloat distance.kilometers
    let dmi ← pyFloat distance.miles
    pure (some
      { close_approach_date := ap.close_approach_date
        close_approach_date_full := ap.close_approach_date_full
        epoch_date_close_approach := ap.epoch_date_close_approach
        relative_velocity_km_s := vks
        relative_velocity_km_h := vkh
        relative_velocity_mph := vmh
        miss_distance_au := dau
        miss_distance_lunar := dlu
        miss_distance_km := dkm
        miss_distance_mi := dmi
        orbiting_body := ap.orbiting_body })
  | _ => pure none

/-- Embedding of `normalize_asteroid_data` (`normalize.py`): flatten one raw
record into the summary dictionary. `raw_data["estimated_diameter"]` and the
four unit lookups are `[]` accesses (they raise on absence); the scalar
fields use `.get` (total, default `None`); the first-approach summary block
is `normalize_approach_summary`. -/
def normalize_asteroid_data (raw : RawRecord) : Except String Normalized := do
  let diameter ← req raw.estimated_diameter "estimated_diameter"
  let km ← req (lookupUnit diameter "kilometers") "kilometers"
  let me ← req (lookupUnit diameter "meters") "meters"
  let mi ← req (lookupUnit diameter "miles") "miles"
  let ft ← req (lookupUnit diameter "feet") "feet"
  let approach? ← normalize_approach_summary raw.close_approach_data
  pure
    { id := raw.id
      name := raw.name
      nasa_jpl_url := raw.nasa_jpl_url
      absolute_magnitude_h := raw.absolute_magnitude_h
      estimated_diameter_km_min := km.estimated_diameter_min
      estimated_diameter_km_max := km.estimated_diameter_max
      estimated_diameter_m_min := me.estimated_diameter_min
      estimated_diameter_m_max := me.estimated_diameter_max
      estimated_diameter_mi_min := mi.estimated_diameter_min
      estimated_diameter_mi_max := mi.estimated_diameter_max
      estimated_diameter_ft_min := ft.estimated_diameter_min
      estimated_diameter_ft_max := ft.estimated_diameter_max
      is_potentially_hazardous_asteroid := raw.is_potentially_hazardous_asteroid
      is_sentry_object := raw.is_sentry_object
      approach := approach? }

/-- Embedding of `normalize_multiple_asteroids` (`normalize.py`): a plain
list comprehension, so the first exception raised by any record aborts the
whole batch. -/
def normalize_multiple_asteroids : List RawRecord → Except String (List Normalized)
  | [] => .ok []
  | r :: rs => do
    let n ← normalize_asteroid_data r
    let ns ← normalize_multiple_asteroids rs
    pure (n :: ns)

/-- Embedding of `extract_asteroids_from_feed` (`normalize.py`):
`feed_response.get("near_earth_objects", {})`, then `extend` the accumulator
with each date's list in iteration (insertion) order. -/
def extract_asteroids_from_feed (feed : FeedResponse) : List RawRecord :=
  (feed.near_earth_objects.getD []).foldl (fun acc g => acc ++ g.2) []

/-- A row of the `asteroids` table (`database.py`): `id` is the primary key,
the two flags are stored as SQLite integers via `int(...)`. -/
structure AsteroidRow where
  id : String
  neo_reference_id : String
  name : String
  nasa_jpl_url : String
  absolute_magnitude_h : ℚ
  is_potentially_hazardous : Int
  is_sentry_object : Int
deriving DecidableEq, Repr

/-- A row of the `asteroid_diameters` table (the AUTOINCREMENT surrogate key
is represented by list position). -/
structure DiameterRow where
  asteroid_id : String
  unit : String
  diameter_min : ℚ
  diameter_max : ℚ
deriving DecidableEq, Repr

/-- A row of the `close_approaches` table. `close_approach_date_full` and
`epoch_date_close_approach` are read with `.get` in the source, so an absent
key stores SQL NULL (`none`). -/
structure ApproachRow where
  asteroid_id : String
  close_approach_date : String
  close_approach_date_full : Option String
  epoch_date_close_approach : Option Int
  velocity_km_s : ℚ
  velocity_km_h : ℚ
  velocity_mi_h : ℚ
  miss_distance_astronomical : ℚ
  miss_distance_lunar : ℚ
  miss_distance_km : ℚ
  miss_distance_miles : ℚ
  orbiting_body : String
deriving DecidableEq, Repr

/-- The SQLite database state: the three tables, each in insertion (rowid)
order. -/
structure DB where
  asteroids : List AsteroidRow
  asteroid_diameters : List DiameterRow
  close_approaches : List ApproachRow
deriving DecidableEq, Repr

/-- The freshly created database (all three tables empty). -/
def emptyDB : DB := ⟨[], [], []⟩

/-- SQLite `INSERT OR REPLACE` on a table whose primary key is `id`: the
conflicting row (if any) is deleted and the new row inserted with a fresh
rowid, i.e. at the end. -/
def upsertAsteroid (tbl : List AsteroidRow) (row : AsteroidRow) : List AsteroidRow :=
  tbl.filter (fun r => r.id ≠ row.id) ++ [row]

/-- The diameter rows inserted for one asteroid: one plain `INSERT` per
entry of `estimated_diameter.items()`, in iteration order. -/
def diameterRowsOf (aid : String) (dblock : List (String × DiameterEntry)) :
    List DiameterRow :=
  dblock.map (fun g =>
    ⟨aid, g.1, g.2.estimated_diameter_min, g.2.estimated_diameter_max⟩)

/-- The `close_approaches` row built from one raw approach entry:
`close_approach_date`, `relative_velocity`, `miss_distance` and
`orbiting_body` are `[]` accesses, the numeric strings go through
`float(...)`. -/
def approachRowOf (aid : String) (ap : RawApproach) : Except String ApproachRow := do
  let date ← req ap.close_approach_date "close_approach_date"
  let velocity ← req ap.relative_velocity "relative_velocity"
  let vks ← pyFloat velocity.kilometers_per_second
  let vkh ← pyFloat velocity.kilometers_per_hour
  let vmh ← pyFloat velocity.miles_per_hour
  let distance ← req ap.miss_distance "miss_distance"
  let dau ← pyFloat distance.astronomical
  let dlu ← pyFloat distance.lunar
  let dkm ← pyFloat distance.kilometers
  let dmi ← pyFloat distance.miles
  let ob ← req ap.orbiting_body "orbiting_body"
  pure
    { asteroid_id := aid
      close_approach_date := date
      close_approach_date_full := ap.close_approach_date_full
      epoch_date_close_approach := ap.epoch_date_close_approach
      velocity_km_s := vks
      velocity_km_h := vkh
      velocity_mi_h := vmh
      miss_distance_astronomical := dau
      miss_distance_lunar := dlu
      miss_distance_km := dkm
      miss_distance_miles := dmi
      orbiting_body := ob }

/-- The approach rows inserted for one asteroid: one `INSERT` per entry of
`close_approach_data`, in list order; the first exception aborts. -/
def approachRowsOf (aid : String) : List RawApproach → Except String (List ApproachRow)
  | [] => .ok []
  | ap :: rest => do
    let r ← approachRowOf aid ap
    let rs ← approachRowsOf aid rest
    pure (r :: rs)

/-- The full set of rows the ingestion loop writes for one stored record. -/
structure StorageRows where
  asteroid : AsteroidRow
  diameters : List DiameterRow
  approaches : List ApproachRow
deriving DecidableEq, Repr

/-- The row-sets the `database.py` loop body derives from one raw record:
`none` when the record is skipped by the hazardous filter
(`if not asteroid["is_potentially_hazardous_asteroid"]: continue`), the
three row-sets otherwise. Field accesses and `float` conversions follow the
source's evaluation order; `is_sentry_object` alone is read with an explicit
default (`asteroid.get("is_sentry_object", False)`). -/
def storageRowsOf (a : RawRecord) : Except String (Option StorageRows) := do
  let hz ← req a.is_potentially_hazardous_asteroid "is_potentially_hazardous_asteroid"
  if hz then do
    let i ← req a.id "id"
    let nrid ← req a.neo_reference_id "neo_reference_id"
    let nm ← req a.name "name"
    let url ← req a.nasa_jpl_url "nasa_jpl_url"
    let mag ← req a.absolute_magnitude_h "absolute_magnitude_h"
    let row : AsteroidRow :=
      ⟨i, nrid, nm, url, mag, pyInt hz, pyInt (a.is_sentry_object.getD false)⟩
    let dblock ← req a.estimated_diameter "estimated_diameter"
    let capps ← req a.close_approach_data "close_approach_data"
    let arows ← approachRowsOf i capps
    pure (some ⟨row, diameterRowsOf i dblock, arows⟩)
  else
    pure none

/-- Apply one stored record's rows to the database: upsert the asteroid row,
append the child rows. -/
def applyRows (db : DB) (rows : StorageRows) : DB :=
  { asteroids := upsertAsteroid db.asteroids rows.asteroid
    asteroid_diameters := db.asteroid_diameters ++ rows.diameters
    close_approaches := db.close_approaches ++ rows.approaches }

/-- The `database.py` loop body for one raw record: skip non-hazardous
records, otherwise write the three row-sets. -/
def processAsteroid (db : DB) (a : RawRecord) : Except String DB := do
  match ← storageRowsOf a with
  | none => pure db
  | some rows => pure (applyRows db rows)

/-- The ingestion loop over one page of records: left-to-right, the first
exception aborts the batch (and the script, before any commit). -/
def ingest (db : DB) (batch : List RawRecord) : Except String DB :=
  batch.foldlM processAsteroid db

/-- Modelled from the spec: `listAsteroidIds()` — the read path returning
all known asteroid identifiers (implemented in the repository outside
`src/`; `main.py` imports `get_all_asteroid_ids` from a module version not
present). Returns the identifiers in table order. -/
def listAsteroidIds (db : DB) : List String :=
  db.asteroids.map (fun r => r.id)

/-- Number of rows of the `asteroids` table carrying a given identifier. -/
def asteroidRowCount (db : DB) (i : String) : ℕ :=
  (db.asteroids.filter (fun r => r.id = i)).length

/-- Number of rows of the `asteroid_diameters` table carrying a given
asteroid identifier. -/
def diameterRowCount (db : DB) (i : String) : ℕ :=
  (db.asteroid_diameters.filter (fun r => r.asteroid_id = i)).length

/-- Number of rows of the `close_approaches` table carrying a given asteroid
identifier. -/
def approachRowCount (db : DB) (i : String) : ℕ :=
  (db.close_approaches.filter (fun r => r.asteroid_id = i)).length

/-- The number of distinct asteroid identifiers in the store. -/
def distinctIdCount (db : DB) : ℕ :=
  (listAsteroidIds db).toFinset.card

/-- Whether a computation raised an exception. -/
def raises {α : Type} : Except String α → Bool
  | .error _ => true
  | .ok _ => false

theorem req_some {α : Type} (v : α) (k : String) : req (some v) k = .ok v := rfl

theorem req_none {α : Type} (k : String) :
    req (none : Option α) k = .error ("KeyError: " ++ k) := rfl

theorem okBind {α β : Type} (v : α) (f : α → Except String β) :
    ((Except.ok v : Except String α) >>= f) = f v := rfl

theorem errBind {α β : Type} (e : String) (f : α → Except String β) :
    ((Except.error e : Except String α) >>= f) = .error e := rfl

theorem pureOk {α : Type} (v : α) : (pure v : Except String α) = .ok v := rfl

theorem bind_ok_inv {α β : Type} {e : Except String α} {f : α → Except String β}
    {r : β} (h : (e >>= f) = .ok r) : ∃ v, e = .ok v ∧ f v = .ok r := by
  cases e with
  | ok v => exact ⟨v, rfl, h⟩
  | error s => rw [errBind] at h; exact Except.noConfusion h

theorem raises_not_ok {α : Type} {e : Except String α} (h : raises e = true) (v : α) :
    e ≠ .ok v := by
  cases e with
  | ok w => simp [raises] at h
  | error s => exact fun hc => Except.noConfusion hc

/-- Success of the per-asteroid approach-row loop determines the row list
pointwise: same length, and the `j`-th row is built from the `j`-th source
entry (source-list order). -/
theorem approachRowsOf_ok_inv (aid : String) :
    ∀ (l : List RawApproach) (rs : List ApproachRow),
      approachRowsOf aid l = .ok rs →
      rs.length = l.length ∧
        ∀ (j : ℕ) (hj : j < l.length) (hj' : j < rs.length),
          approachRowOf aid (l.get ⟨j, hj⟩) = .ok (rs.get ⟨j, hj'⟩) := by
  intro l
  induction l with
  | nil =>
    intro rs h
    rw [approachRowsOf] at h
    cases h
    exact ⟨rfl, fun j hj => absurd hj (by simp)⟩
  | cons ap rest ih =>
    intro rs h
    rw [approachRowsOf] at h
    obtain ⟨r, hr, h⟩ := bind_ok_inv h
    obtain ⟨rtl, hrtl, h⟩ := bind_ok_inv h
    rw [pureOk] at h
    cases h
    obtain ⟨hlen, hpt⟩ := ih rtl hrtl
    refine ⟨by simp [hlen], ?_⟩
    intro j hj hj'
    cases j with
    | zero => exact hr
    | succ j => exact hpt j (by simpa using hj) (by simpa using hj')

theorem approachRowOf_aid {aid : String} {ap : RawApproach} {r : ApproachRow}
    (h : approachRowOf aid ap = .ok r) : r.asteroid_id = aid := by
  rw [approachRowOf] at h
  obtain ⟨date, _, h⟩ := bind_ok_inv h
  obtain ⟨vel, _, h⟩ := bind_ok_inv h
  obtain ⟨vks, _, h⟩ := bind_ok_inv h
  obtain ⟨vkh, _, h⟩ := bind_ok_inv h
  obtain ⟨vmh, _, h⟩ := bind_ok_inv h
  obtain ⟨dist, _, h⟩ := bind_ok_inv h
  obtain ⟨dau, _, h⟩ := bind_ok_inv h
  obtain ⟨dlu, _, h⟩ := bind_ok_inv h
  obtain ⟨dkm, _, h⟩ := bind_ok_inv h
  obtain ⟨dmi, _, h⟩ := bind_ok_inv h
  obtain ⟨ob, _, h⟩ := bind_ok_inv h
  rw [pureOk] at h
  cases h
  rfl

theorem approachRowsOf_aid {aid : String} :
    ∀ {l : List RawApproach} {rs : List ApproachRow},
      approachRowsOf aid l = .ok rs → ∀ r ∈ rs, r.asteroid_id = aid := by
  intro l
  induction l with
  | nil =>
    intro rs h
    rw [approachRowsOf] at h
    cases h
    simp
  | cons ap rest ih =>
    intro rs h
    rw [approachRowsOf] at h
    obtain ⟨r, hr, h⟩ := bind_ok_inv h
    obtain ⟨rtl, hrtl, h⟩ := bind_ok_inv h
    rw [pureOk] at h
    cases h
    intro x hx
    rcases List.mem_cons.mp hx with hx | hx
    · exact hx ▸ approachRowOf_aid hr
    · exact ih hrtl x hx

/-- Inversion of a successful, non-skipped run of the ingestion loop body:
the record passed the hazardous filter, every required field was present,
and the produced row-sets are exactly the source-derived ones. -/
theorem storageRowsOf_some_inv {a : RawRecord} {rows : StorageRows}
    (h : storageRowsOf a = .ok (some rows)) :
    ∃ i nrid nm url mag dblock capps,
      a.is_potentially_hazardous_asteroid = some true ∧
      a.id = some i ∧ a.neo_reference_id = some nrid ∧ a.name = some nm ∧
      a.nasa_jpl_url = some url ∧ a.absolute_magnitude_h = some mag ∧
      a.estimated_diameter = some dblock ∧ a.close_approach_data = some capps ∧
      rows.asteroid =
        ⟨i, nrid, nm, url, mag, 1, pyInt (a.is_sentry_object.getD false)⟩ ∧
      rows.diameters = diameterRowsOf i dblock ∧
      approachRowsOf i capps = .ok rows.approaches := by
  rw [storageRowsOf] at h
  obtain ⟨hz, hhz, h⟩ := bind_ok_inv h
  cases hz with
  | false =>
    simp only [Bool.false_eq_true, if_false, pureOk] at h
    exact absurd (Except.ok.inj h) (by simp)
  | true =>
    simp only [if_true] at h
    obtain ⟨i, hi, h⟩ := bind_ok_inv h
    obtain ⟨nrid, hnrid, h⟩ := bind_ok_inv h
    obtain ⟨nm, hnm, h⟩ := bind_ok_inv h
    obtain ⟨url, hurl, h⟩ := bind_ok_inv h
    obtain ⟨mag, hmag, h⟩ := bind_ok_inv h
    obtain ⟨dblock, hdb, h⟩ := bind_ok_inv h
    obtain ⟨capps, hcapps, h⟩ := bind_ok_inv h
    obtain ⟨arows, harows, h⟩ := bind_ok_inv h
    rw [pureOk] at h
    have hrows := Option.some.inj (Except.ok.inj h)
    refine ⟨i, nrid, nm, url, mag, dblock, capps, ?_, ?_, ?_, ?_, ?_, ?_, ?_, ?_, ?_, ?_, ?_⟩
    · cases ho : a.is_potentially_hazardous_asteroid with
      | none => rw [ho, req_none] at hhz; exact Except.noConfusion hhz
      | some b => rw [ho, req_some] at hhz; rw [Except.ok.inj hhz]
    · cases ho : a.id with
      | none => rw [ho, req_none] at hi; exact Except.noConfusion hi
      | some v => rw [ho, req_some] at hi; rw [Except.ok.inj hi]
    · cases ho : a.neo_reference_id with
      | none => rw [ho, req_none] at hnrid; exact Except.noConfusion hnrid
      | some v => rw [ho, req_some] at hnrid; rw [Except.ok.inj hnrid]
    · cases ho : a.name with
      | none => rw [ho, req_none] at hnm; exact Except.noConfusion hnm
      | some v => rw [ho, req_some] at hnm; rw [Except.ok.inj hnm]
    · cases ho : a.nasa_jpl_url with
      | none => rw [ho, req_none] at hurl; exact Except.noConfusion hurl
      | some v => rw [ho, req_some] at hurl; rw [Except.ok.inj hurl]
    · cases ho : a.absolute_magnitude_h with
      | none => rw [ho, req_none] at hmag; exact Except.noConfusion hmag
      | some v => rw [ho, req_some] at hmag; rw [Except.ok.inj hmag]
    · cases ho : a.estimated_diameter with
      | none => rw [ho, req_none] at hdb; exact Except.noConfusion hdb
      | some v => rw [ho, req_some] at hdb; rw [Except.ok.inj hdb]
    · cases ho : a.close_approach_data with
      | none => rw [ho, req_none] at hcapps; exact Except.noConfusion hcapps
      | some v => rw [ho, req_some] at hcapps; rw [Except.ok.inj hcapps]
    · rw [← hrows]; rfl
    · rw [← hrows]
    · rw [← hrows]; exact harows

/-- A record whose hazardous flag is present and false is skipped by the
filter: no row-sets are produced. -/
theorem storageRowsOf_nonhazardous {a : RawRecord}
    (h : a.is_potentially_hazardous_asteroid = some false) :
    storageRowsOf a = .ok none := by
  rw [storageRowsOf, h, req_some, okBind]
  simp [pureOk]

theorem processAsteroid_skip {db : DB} {a : RawRecord}
    (h : storageRowsOf a = .ok none) : processAsteroid db a = .ok db := by
  rw [processAsteroid, h, okBind]
  rfl

theorem processAsteroid_store {db : DB} {a : RawRecord} {rows : StorageRows}
    (h : storageRowsOf a = .ok (some rows)) :
    processAsteroid db a = .ok (applyRows db rows) := by
  rw [processAsteroid, h, okBind]
  rfl

theorem mem_listAsteroidIds_applyRows (d : DB) (rows : StorageRows) (x : String) :
    x ∈ listAsteroidIds (applyRows d rows) ↔
      x = rows.asteroid.id ∨ (x ∈ listAsteroidIds d ∧ x ≠ rows.asteroid.id) := by
  simp only [listAsteroidIds, applyRows, upsertAsteroid, List.map_append,
    List.mem_append, List.mem_map, List.mem_filter, List.map_cons, List.map_nil,
    List.mem_singleton, decide_eq_true_eq]
  constructor
  · rintro (⟨r, ⟨hr, hne⟩, rfl⟩ | rfl)
    · exact Or.inr ⟨⟨r, hr, rfl⟩, hne⟩
    · exact Or.inl rfl
  · rintro (rfl | ⟨⟨r, hr, rfl⟩, hne⟩)
    · exact Or.inr rfl
    · exact Or.inl ⟨r, ⟨hr, hne⟩, rfl⟩

theorem ids_toFinset_applyRows_twice (d : DB) (rows : StorageRows) :
    (listAsteroidIds (applyRows (applyRows d rows) rows)).toFinset =
      (listAsteroidIds (applyRows d rows)).toFinset := by
  ext x
  simp only [List.mem_toFinset, mem_listAsteroidIds_applyRows]
  tauto

theorem asteroidRowCount_applyRows_self (d : DB) (rows : StorageRows) :
    asteroidRowCount (applyRows d rows) rows.asteroid.id = 1 := by
  simp only [asteroidRowCount, applyRows, upsertAsteroid, List.filter_append,
    List.length_append]
  have h1 : ((d.asteroids.filter fun r => decide (r.id ≠ rows.asteroid.id)).filter
      fun r => decide (r.id = rows.asteroid.id)) = [] := by
    rw [List.filter_eq_nil_iff]
    intro r hr
    simp only [List.mem_filter, decide_eq_true_eq] at hr
    simp [hr.2]
  rw [h1]
  simp

theorem raises_bind_left {α β : Type} {e : Except String α}
    (f : α → Except String β) (h : raises e = true) : raises (e >>= f) = true := by
  cases e with
  | error s => rfl
  | ok v => simp [raises] at h

/-- One record raising an exception aborts the whole batch comprehension:
`normalize_multiple_asteroids` raises whenever any member record does. -/
theorem normalize_multiple_raises {r : RawRecord}
    (hr : raises (normalize_asteroid_data r) = true) :
    ∀ {l : List RawRecord}, r ∈ l →
      raises (normalize_multiple_asteroids l) = true := by
  intro l
  induction l with
  | nil => intro hmem; exact absurd hmem (List.not_mem_nil r)
  | cons a rest ih =>
    intro hmem
    rw [normalize_multiple_asteroids]
    rcases List.mem_cons.mp hmem with heq | hmem
    · exact raises_bind_left _ (heq ▸ hr)
    · cases hn : normalize_asteroid_data a with
      | error e => rw [errBind]; rfl
      | ok v =>
        rw [okBind]
        exact raises_bind_left _ (ih hmem)

/-- Pointwise inversion of a successful batch normalization: one output per
input record, in order. -/
theorem normalize_multiple_ok_inv :
    ∀ {l : List RawRecord} {ns : List Normalized},
      normalize_multiple_asteroids l = .ok ns →
      ns.length = l.length ∧
        ∀ (j : ℕ) (hj : j < l.length) (hj' : j < ns.length),
          normalize_asteroid_data (l.get ⟨j, hj⟩) = .ok (ns.get ⟨j, hj'⟩) := by
  intro l
  induction l with
  | nil =>
    intro ns h
    rw [normalize_multiple_asteroids] at h
    cases h
    exact ⟨rfl, fun j hj => absurd hj (by simp)⟩
  | cons a rest ih =>
    intro ns h
    rw [normalize_multiple_asteroids] at h
    obtain ⟨n, hn, h⟩ := bind_ok_inv h
    obtain ⟨ntl, hntl, h⟩ := bind_ok_inv h
    rw [pureOk] at h
    cases h
    obtain ⟨hlen, hpt⟩ := ih hntl
    refine ⟨by simp [hlen], ?_⟩
    intro j hj hj'
    cases j with
    | zero => exact hn
    | succ j => exact hpt j (by simpa using hj) (by simpa using hj')

/-- A batch in which every record normalizes successfully produces a
successful batch result. -/
theorem normalize_multiple_total :
    ∀ {l : List RawRecord},
      (∀ r ∈ l, ∃ n, normalize_asteroid_data r = .ok n) →
      ∃ ns, normalize_multiple_asteroids l = .ok ns := by
  intro l
  induction l with
  | nil => intro _; exact ⟨[], rfl⟩
  | cons a rest ih =>
    intro h
    obtain ⟨n, hn⟩ := h a (List.mem_cons_self a rest)
    obtain ⟨ns, hns⟩ := ih (fun r hr => h r (List.mem_cons_of_mem a hr))
    exact ⟨n :: ns, by rw [normalize_multiple_asteroids, hn, okBind, hns, okBind, pureOk]⟩

theorem processAsteroid_ok_inv {db db' : DB} {a : RawRecord}
    (h : processAsteroid db a = .ok db') :
    (storageRowsOf a = .ok none ∧ db' = db) ∨
      ∃ rows, storageRowsOf a = .ok (some rows) ∧ db' = applyRows db rows := by
  rw [processAsteroid] at h
  obtain ⟨o, ho, h⟩ := bind_ok_inv h
  cases o with
  | none => rw [pureOk] at h; exact Or.inl ⟨ho, (Except.ok.inj h).symm⟩
  | some rows => rw [pureOk] at h; exact Or.inr ⟨rows, ho, (Except.ok.inj h).symm⟩

/-- The single close-approach entry of the sample record shipped in
`normalize.py`. -/
def sampleApproach : RawApproach :=
  { close_approach_date := some "2015-09-08"
    close_approach_date_full := some "2015-Sep-08 20:28"
    epoch_date_close_approach := some 1441744080000
    relative_velocity := some
      ⟨.num 18.1279360862, .num 65260.5699103704, .num 40550.3802312521⟩
    miss_distance := some
      ⟨.num 0.3027469457, .num 117.7685618773, .num 45290298.225725659,
        .num 28142086.3515817342⟩
    orbiting_body := some "Earth" }

/-- The sample asteroid record shipped in `normalize.py`
(`sample_asteroid_data`, identifier 2465633). -/
def sampleRecord : RawRecord :=
  { id := some "2465633"
    neo_reference_id := some "2465633"
    name := some "465633 (2009 JR5)"
    nasa_jpl_url := some "https://ssd.jpl.nasa.gov/tools/sbdb_lookup.html#/?sstr=2465633"
    absolute_magnitude_h := some 20.44
    estimated_diameter := some
      [("kilometers", ⟨0.2170475943, 0.4853331752⟩),
        ("meters", ⟨217.0475943071, 485.3331752235⟩),
        ("miles", ⟨0.1348670807, 0.3015719604⟩),
        ("feet", ⟨712.0984293066, 1592.3004946003⟩)]
    is_potentially_hazardous_asteroid := some true
    is_sentry_object := some false
    close_approach_data := some [sampleApproach] }

/-- Fallback value used when extracting row-sets from a computation known to
succeed. -/
def defaultStorageRows : StorageRows := ⟨⟨"", "", "", "", 0, 0, 0⟩, [], []⟩

/-- The row-sets the ingestion loop derives from the sample record. -/
def sampleRows : StorageRows :=
  match storageRowsOf sampleRecord with
  | .ok (some r) => r
  | _ => defaultStorageRows

/-- The store after ingesting the sample record once into an empty database. -/
def sampleDB1 : DB := applyRows emptyDB sampleRows

/-- The store after ingesting the sample record twice. -/
def sampleDB2 : DB := applyRows sampleDB1 sampleRows

/-- C1: re-normalizing and re-storing the identical record for the same
identifier leaves exactly one row in the `asteroids` table — the
`INSERT OR REPLACE` upsert keyed by `id` is idempotent, and the number of
distinct asteroid identifiers stays constant across repeated ingestion of
the same input. -/
theorem upsert_idempotent_one_row (db db1 db2 : DB) (a : RawRecord)
    (rows : StorageRows)
    (hrows : storageRowsOf a = .ok (some rows))
    (h1 : processAsteroid db a = .ok db1)
    (h2 : processAsteroid db1 a = .ok db2) :
    asteroidRowCount db2 rows.asteroid.id = 1 ∧
      distinctIdCount db2 = distinctIdCount db1 := by
  have hs1 := @processAsteroid_store db a rows hrows
  rw [h1] at hs1
  have e1 : db1 = applyRows db rows := Except.ok.inj hs1
  subst e1
  have hs2 := @processAsteroid_store (applyRows db rows) a rows hrows
  rw [h2] at hs2
  have e2 : db2 = applyRows (applyRows db rows) rows := Except.ok.inj hs2
  subst e2
  exact ⟨asteroidRowCount_applyRows_self _ _,
    congrArg Finset.card (ids_toFinset_applyRows_twice db rows)⟩

/-- C1 witness: ingesting the `normalize.py` sample record twice into an
empty store leaves one `asteroids` row for its identifier and an unchanged
distinct-identifier count. -/
theorem upsert_idempotent_one_row_witness :
    asteroidRowCount sampleDB2 sampleRows.asteroid.id = 1 ∧
      distinctIdCount sampleDB2 = distinctIdCount sampleDB1 :=
  upsert_idempotent_one_row emptyDB sampleDB1 sampleDB2 sampleRecord sampleRows
    (by rfl) (by rfl) (by rfl)

/-- The sample record with the `estimated_diameter` block removed. -/
def noDiameterRecord : RawRecord :=
  { sampleRecord with estimated_diameter := none }

/-- C2 counterexample: on a record lacking the `estimated_diameter` block,
`normalize_asteroid_data` raises `KeyError` instead of producing a row with
zero diameter rows, and the ingestion loop body raises the same `KeyError`
rather than storing the asteroid row. -/
theorem normalize_missing_diameter_raises :
    normalize_asteroid_data noDiameterRecord = .error "KeyError: estimated_diameter" ∧
      storageRowsOf noDiameterRecord = .error "KeyError: estimated_diameter" :=
  ⟨rfl, rfl⟩

/-- A record carrying only a well-formed diameter block, every other
optional field absent. -/
def bareRecord : RawRecord :=
  { id := none
    neo_reference_id := none
    name := none
    nasa_jpl_url := none
    absolute_magnitude_h := none
    estimated_diameter := some
      [("kilometers", ⟨1, 2⟩), ("meters", ⟨3, 4⟩),
        ("miles", ⟨5, 6⟩), ("feet", ⟨7, 8⟩)]
    is_potentially_hazardous_asteroid := none
    is_sentry_object := none
    close_approach_data := none }

/-- C2 amended: the diameter block is required — normalization raises a
`KeyError` whenever `estimated_diameter` is absent; the remaining optional
fields are read with defaults, so a record with a well-formed diameter block
normalizes successfully (with no approach summary) even when every other
optional field is missing. -/
theorem normalize_diameter_required (a b : RawRecord)
    (dblock : List (String × DiameterEntry)) (ke me mi ft : DiameterEntry) :
    (a.estimated_diameter = none → raises (normalize_asteroid_data a) = true) ∧
      (b.estimated_diameter = some dblock →
        lookupUnit dblock "kilometers" = some ke →
        lookupUnit dblock "meters" = some me →
        lookupUnit dblock "miles" = some mi →
        lookupUnit dblock "feet" = some ft →
        b.close_approach_data = none →
        normalize_asteroid_data b = .ok
          ⟨b.id, b.name, b.nasa_jpl_url, b.absolute_magnitude_h,
            ke.estimated_diameter_min, ke.estimated_diameter_max,
            me.estimated_diameter_min, me.estimated_diameter_max,
            mi.estimated_diameter_min, mi.estimated_diameter_max,
            ft.estimated_diameter_min, ft.estimated_diameter_max,
            b.is_potentially_hazardous_asteroid, b.is_sentry_object, none⟩) := by
  constructor
  · intro ha
    rw [normalize_asteroid_data, ha, req_none, errBind]
    rfl
  · intro hd hk hm hmi hf hc
    rw [normalize_asteroid_data, hd, req_some, okBind, hk, req_some, okBind,
      hm, req_some, okBind, hmi, req_some, okBind, hf, req_some, okBind, hc]
    rfl

/-- C2 amended witness: the sample record without its diameter block raises,
and the bare record (diameter block only) normalizes successfully. -/
theorem normalize_diameter_required_witness :
    raises (normalize_asteroid_data noDiameterRecord) = true ∧
      normalize_asteroid_data bareRecord = .ok
        ⟨none, none, none, none, 1, 2, 3, 4, 5, 6, 7, 8, none, none, none⟩ :=
  ⟨(normalize_diameter_required noDiameterRecord bareRecord
      [("kilometers", ⟨1, 2⟩), ("meters", ⟨3, 4⟩), ("miles", ⟨5, 6⟩), ("feet", ⟨7, 8⟩)]
      ⟨1, 2⟩ ⟨3, 4⟩ ⟨5, 6⟩ ⟨7, 8⟩).1 rfl,
    (normalize_diameter_required noDiameterRecord bareRecord
      [("kilometers", ⟨1, 2⟩), ("meters", ⟨3, 4⟩), ("miles", ⟨5, 6⟩), ("feet", ⟨7, 8⟩)]
      ⟨1, 2⟩ ⟨3, 4⟩ ⟨5, 6⟩ ⟨7, 8⟩).2 rfl rfl rfl rfl rfl rfl⟩

/-- C3: a stored record with `m` close-approach entries yields exactly `m`
rows of `close_approaches`, the `j`-th row built from the `j`-th source
entry (source-list order, all entries retained), while the single-record
summary normalization depends only on the first entry (it is invariant
under replacing the tail of the approach list). -/
theorem storage_retains_all_approaches (a : RawRecord) (rows : StorageRows)
    (capps t1 t2 : List RawApproach) (c : RawApproach)
    (hrows : storageRowsOf a = .ok (some rows))
    (hc : a.close_approach_data = some capps) :
    rows.approaches.length = capps.length ∧
      (∀ (j : ℕ) (hj : j < capps.length) (hj' : j < rows.approaches.length),
        approachRowOf rows.asteroid.id (capps.get ⟨j, hj⟩) =
          .ok (rows.approaches.get ⟨j, hj'⟩)) ∧
      normalize_asteroid_data { a with close_approach_data := some (c :: t1) } =
        normalize_asteroid_data { a with close_approach_data := some (c :: t2) } := by
  obtain ⟨i, nrid, nm, url, mag, dblock, capps', hhz, hi, hnrid, hnm, hurl, hmag,
    hdb, hcapps, hast, hdia, happ⟩ := storageRowsOf_some_inv hrows
  rw [hc] at hcapps
  have hceq : capps = capps' := Option.some.inj hcapps
  subst hceq
  have hid : rows.asteroid.id = i := by rw [hast]
  obtain ⟨hlen, hpt⟩ := approachRowsOf_ok_inv i capps rows.approaches happ
  exact ⟨hlen, fun j hj hj' => hid ▸ hpt j hj hj', rfl⟩

/-- C3 witness: the sample record (one approach entry) stores exactly one
approach row built from that entry, and its summary is unchanged when the
approach-list tail is extended. -/
theorem storage_retains_all_approaches_witness :
    sampleRows.approaches.length = [sampleApproach].length ∧
      (∀ (j : ℕ) (hj : j < [sampleApproach].length)
          (hj' : j < sampleRows.approaches.length),
        approachRowOf sampleRows.asteroid.id ([sampleApproach].get ⟨j, hj⟩) =
          .ok (sampleRows.approaches.get ⟨j, hj'⟩)) ∧
      normalize_asteroid_data
          { sampleRecord with close_approach_data := some [sampleApproach] } =
        normalize_asteroid_data
          { sampleRecord with
              close_approach_data := some [sampleApproach, sampleApproach] } :=
  storage_retains_all_approaches sampleRecord sampleRows [sampleApproach]
    [] [sampleApproach] sampleApproach (by rfl) (by rfl)

theorem diameterRowCount_applyRows (d : DB) (rows : StorageRows) (i : String) :
    diameterRowCount (applyRows d rows) i =
      diameterRowCount d i +
        (rows.diameters.filter (fun r => r.asteroid_id = i)).length := by
  simp [diameterRowCount, applyRows, List.filter_append]

theorem approachRowCount_applyRows (d : DB) (rows : StorageRows) (i : String) :
    approachRowCount (applyRows d rows) i =
      approachRowCount d i +
        (rows.approaches.filter (fun r => r.asteroid_id = i)).length := by
  simp [approachRowCount, applyRows, List.filter_append]

theorem diameterRowsOf_filter_self (i : String)
    (dblock : List (String × DiameterEntry)) :
    ((diameterRowsOf i dblock).filter (fun r => r.asteroid_id = i)).length =
      dblock.length := by
  have h : (diameterRowsOf i dblock).filter (fun r => r.asteroid_id = i) =
      diameterRowsOf i dblock := by
    rw [List.filter_eq_self]
    intro r hr
    simp only [diameterRowsOf, List.mem_map] at hr
    obtain ⟨g, _, rfl⟩ := hr
    simp
  rw [h, diameterRowsOf, List.length_map]

theorem approachRows_filter_self {i : String} {l : List RawApproach}
    {rs : List ApproachRow} (h : approachRowsOf i l = .ok rs) :
    (rs.filter (fun r => r.asteroid_id = i)).length = l.length := by
  have hall : rs.filter (fun r => r.asteroid_id = i) = rs := by
    rw [List.filter_eq_self]
    intro r hr
    simp [approachRowsOf_aid h r hr]
  rw [hall, (approachRowsOf_ok_inv i l rs h).1]

/-- The `estimated_diameter` block of the sample record, as an association
list in source order. -/
def sampleDiameters : List (String × DiameterEntry) :=
  [("kilometers", ⟨0.2170475943, 0.4853331752⟩),
    ("meters", ⟨217.0475943071, 485.3331752235⟩),
    ("miles", ⟨0.1348670807, 0.3015719604⟩),
    ("feet", ⟨712.0984293066, 1592.3004946003⟩)]

/-- C4: `asteroid_diameters` and `close_approaches` inserts are pure appends
with no uniqueness constraint, so ingesting the same record twice (with `k`
diameter units and `m` approaches, starting from a store holding no child
rows for its identifier) leaves `2k` diameter rows and `2m` approach rows
for that asteroid identifier. -/
theorem reingest_duplicates_child_rows (db db1 db2 : DB) (a : RawRecord)
    (rows : StorageRows) (dblock : List (String × DiameterEntry))
    (capps : List RawApproach)
    (hrows : storageRowsOf a = .ok (some rows))
    (hd : a.estimated_diameter = some dblock)
    (hc : a.close_approach_data = some capps)
    (h1 : processAsteroid db a = .ok db1)
    (h2 : processAsteroid db1 a = .ok db2)
    (hd0 : diameterRowCount db rows.asteroid.id = 0)
    (ha0 : approachRowCount db rows.asteroid.id = 0) :
    diameterRowCount db2 rows.asteroid.id = 2 * dblock.length ∧
      approachRowCount db2 rows.asteroid.id = 2 * capps.length := by
  have hs1 := @processAsteroid_store db a rows hrows
  rw [h1] at hs1
  have e1 : db1 = applyRows db rows := Except.ok.inj hs1
  subst e1
  have hs2 := @processAsteroid_store (applyRows db rows) a rows hrows
  rw [h2] at hs2
  have e2 : db2 = applyRows (applyRows db rows) rows := Except.ok.inj hs2
  subst e2
  obtain ⟨i, nrid, nm, url, mag, dblock', capps', hhz, hi, hnrid, hnm, hurl, hmag,
    hdb, hcapps, hast, hdia, happ⟩ := storageRowsOf_some_inv hrows
  rw [hd] at hdb
  have hdeq : dblock = dblock' := Option.some.inj hdb
  subst hdeq
  rw [hc] at hcapps
  have hceq : capps = capps' := Option.some.inj hcapps
  subst hceq
  have hid : rows.asteroid.id = i := by rw [hast]
  constructor
  · rw [diameterRowCount_applyRows, diameterRowCount_applyRows, hd0, hdia, hid,
      diameterRowsOf_filter_self]
    ring
  · rw [approachRowCount_applyRows, approachRowCount_applyRows, ha0, hid,
      approachRows_filter_self happ]
    ring

/-- C4 witness: ingesting the sample record (4 diameter units, 1 approach)
twice into an empty store leaves 8 diameter rows and 2 approach rows for its
identifier. -/
theorem reingest_duplicates_child_rows_witness :
    diameterRowCount sampleDB2 sampleRows.asteroid.id = 2 * sampleDiameters.length ∧
      approachRowCount sampleDB2 sampleRows.asteroid.id = 2 * [sampleApproach].length :=
  reingest_duplicates_child_rows emptyDB sampleDB1 sampleDB2 sampleRecord
    sampleRows sampleDiameters [sampleApproach] (by rfl) (by rfl) (by rfl)
    (by rfl) (by rfl) (by rfl) (by rfl)

/-- Whether every row of the `asteroids` table has `is_potentially_hazardous`
stored as 1. -/
def allHazardous (db : DB) : Bool :=
  db.asteroids.all (fun r => r.is_potentially_hazardous = 1)

theorem storageRows_asteroid_hazardous {a : RawRecord} {rows : StorageRows}
    (h : storageRowsOf a = .ok (some rows)) :
    rows.asteroid.is_potentially_hazardous = 1 := by
  obtain ⟨i, nrid, nm, url, mag, dblock, capps, hhz, hi, hnrid, hnm, hurl, hmag,
    hdb, hcapps, hast, hdia, happ⟩ := storageRowsOf_some_inv h
  rw [hast]

theorem mem_upsertAsteroid {tbl : List AsteroidRow} {row r : AsteroidRow}
    (h : r ∈ upsertAsteroid tbl row) : r ∈ tbl ∨ r = row := by
  rcases List.mem_append.mp h with hl | hr
  · exact Or.inl (List.mem_filter.mp hl).1
  · exact Or.inr (List.mem_singleton.mp hr)

theorem ingest_nil (db : DB) : ingest db [] = .ok db := rfl

theorem ingest_cons (db : DB) (a : RawRecord) (rest : List RawRecord) :
    ingest db (a :: rest) =
      (processAsteroid db a >>= fun db1 => ingest db1 rest) := rfl

theorem ingest_preserves_allHazardous :
    ∀ (batch : List RawRecord) (db db' : DB),
      allHazardous db = true → ingest db batch = .ok db' →
      allHazardous db' = true := by
  intro batch
  induction batch with
  | nil =>
    intro db db' hinv h
    rw [ingest_nil] at h
    cases Except.ok.inj h
    exact hinv
  | cons a rest ih =>
    intro db db' hinv h
    rw [ingest_cons] at h
    obtain ⟨db1, hdb1, hrest⟩ := bind_ok_inv h
    clear h
    rcases processAsteroid_ok_inv hdb1 with ⟨_, rfl⟩ | ⟨rows, hrows, rfl⟩
    · exact ih _ db' hinv hrest
    · refine ih _ db' ?_ hrest
      simp only [allHazardous, List.all_eq_true, decide_eq_true_eq] at hinv ⊢
      intro r hr
      rcases mem_upsertAsteroid hr with hmem | rfl
      · exact hinv r hmem
      · exact storageRows_asteroid_hazardous hrows

/-- The sample record with its hazardous flag set to false. -/
def nonHazardousRecord : RawRecord :=
  { sampleRecord with is_potentially_hazardous_asteroid := some false }

/-- C5: the ingestion writer touches the three tables only for records whose
`is_potentially_hazardous_asteroid` flag is true — a non-hazardous record is
skipped entirely (the store is unchanged) — so ingestion preserves the
invariant that every row of the `asteroids` table has
`is_potentially_hazardous = 1`. -/
theorem hazardous_only_invariant (db db' : DB) (a : RawRecord)
    (batch : List RawRecord) :
    (a.is_potentially_hazardous_asteroid = some false →
      processAsteroid db a = .ok db) ∧
      (allHazardous db = true → ingest db batch = .ok db' →
        allHazardous db' = true) :=
  ⟨fun ha => processAsteroid_skip (storageRowsOf_nonhazardous ha),
    fun hinv h => ingest_preserves_allHazardous batch db db' hinv h⟩

/-- C5 witness: the non-hazardous sample record leaves the empty store
untouched, and ingesting it together with the hazardous sample record keeps
every stored row flagged hazardous. -/
theorem hazardous_only_invariant_witness :
    processAsteroid emptyDB nonHazardousRecord = .ok emptyDB ∧
      allHazardous sampleDB1 = true :=
  ⟨(hazardous_only_invariant emptyDB sampleDB1 nonHazardousRecord
      [nonHazardousRecord, sampleRecord]).1 rfl,
    (hazardous_only_invariant emptyDB sampleDB1 nonHazardousRecord
      [nonHazardousRecord, sampleRecord]).2 rfl (by rfl)⟩

theorem storageRowsOf_none_inv {a : RawRecord}
    (h : storageRowsOf a = .ok none) :
    a.is_potentially_hazardous_asteroid = some false := by
  rw [storageRowsOf] at h
  obtain ⟨hz, hhz, h⟩ := bind_ok_inv h
  cases hz with
  | true =>
    simp only [if_true] at h
    obtain ⟨i, _, h⟩ := bind_ok_inv h
    obtain ⟨nrid, _, h⟩ := bind_ok_inv h
    obtain ⟨nm, _, h⟩ := bind_ok_inv h
    obtain ⟨url, _, h⟩ := bind_ok_inv h
    obtain ⟨mag, _, h⟩ := bind_ok_inv h
    obtain ⟨dblock, _, h⟩ := bind_ok_inv h
    obtain ⟨capps, _, h⟩ := bind_ok_inv h
    obtain ⟨arows, _, h⟩ := bind_ok_inv h
    rw [pureOk] at h
    exact absurd (Except.ok.inj h) (by simp)
  | false =>
    cases ho : a.is_potentially_hazardous_asteroid with
    | none => rw [ho, req_none] at hhz; exact Except.noConfusion hhz
    | some b =>
      rw [ho, req_some] at hhz
      rw [Except.ok.inj hhz]

theorem approachRowOf_bad_velocity {i : String} {c : RawApproach}
    {rv : RelVelocity} {s : String}
    (hv : c.relative_velocity = some rv)
    (hs : rv.kilometers_per_second = .bad s) :
    raises (approachRowOf i c) = true := by
  cases hres : approachRowOf i c with
  | error e => rfl
  | ok r =>
    exfalso
    rw [approachRowOf] at hres
    obtain ⟨date, hd, hres⟩ := bind_ok_inv hres
    obtain ⟨vel, hvel, hres⟩ := bind_ok_inv hres
    rw [hv, req_some] at hvel
    cases Except.ok.inj hvel
    obtain ⟨vks, hvks, hres⟩ := bind_ok_inv hres
    rw [hs] at hvks
    simp [pyFloat] at hvks

theorem normalize_bad_velocity {a : RawRecord} {c : RawApproach}
    {t : List RawApproach} {rv : RelVelocity} {s : String}
    (hc : a.close_approach_data = some (c :: t))
    (hv : c.relative_velocity = some rv)
    (hs : rv.kilometers_per_second = .bad s) :
    raises (normalize_asteroid_data a) = true := by
  cases hres : normalize_asteroid_data a with
  | error e => rfl
  | ok n =>
    exfalso
    rw [normalize_asteroid_data] at hres
    obtain ⟨diameter, _, hres⟩ := bind_ok_inv hres
    obtain ⟨km, _, hres⟩ := bind_ok_inv hres
    obtain ⟨me, _, hres⟩ := bind_ok_inv hres
    obtain ⟨mi, _, hres⟩ := bind_ok_inv hres
    obtain ⟨ft, _, hres⟩ := bind_ok_inv hres
    obtain ⟨app?, happ, hres⟩ := bind_ok_inv hres
    rw [hc] at happ
    obtain ⟨vel, hvel, happ⟩ := bind_ok_inv happ
    rw [hv, req_some] at hvel
    cases Except.ok.inj hvel
    obtain ⟨dist, hdist, happ⟩ := bind_ok_inv happ
    obtain ⟨vks, hvks, happ⟩ := bind_ok_inv happ
    rw [hs] at hvks
    simp [pyFloat] at hvks

theorem storageRows_bad_velocity {a : RawRecord} {c : RawApproach}
    {t : List RawApproach} {rv : RelVelocity} {s : String}
    (hc : a.close_approach_data = some (c :: t))
    (hv : c.relative_velocity = some rv)
    (hs : rv.kilometers_per_second = .bad s)
    (hhz : a.is_potentially_hazardous_asteroid ≠ some false) :
    raises (storageRowsOf a) = true := by
  cases hres : storageRowsOf a with
  | error e => rfl
  | ok o =>
    exfalso
    cases o with
    | none => exact hhz (storageRowsOf_none_inv hres)
    | some rows =>
      obtain ⟨i, nrid, nm, url, mag, dblock, capps, _, _, _, _, _, _, _,
        hcapps, _, _, happ⟩ := storageRowsOf_some_inv hres
      rw [hc] at hcapps
      have hceq : (c :: t) = capps := Option.some.inj hcapps
      subst hceq
      obtain ⟨hlen, hpt⟩ := approachRowsOf_ok_inv i (c :: t) rows.approaches happ
      have h0 := hpt 0 (by simp) (by rw [hlen]; simp)
      exact raises_not_ok (approachRowOf_bad_velocity hv hs) _ h0

/-- The sample approach entry with its `kilometers_per_second` velocity
string replaced by one that does not parse. -/
def badVelApproach : RawApproach :=
  { sampleApproach with
      relative_velocity := some
        ⟨.bad "not_a_number", .num 65260.5699103704, .num 40550.3802312521⟩ }

/-- The sample record carrying the unparsable velocity string. -/
def badVelRecord : RawRecord :=
  { sampleRecord with close_approach_data := some [badVelApproach] }

/-- C6 counterexample: a batch containing a record whose velocity string is
`"not_a_number"` is aborted whole by the `ValueError` — the other record is
not normalized and no skipped-unit entry exists — and the ingestion loop
body raises the same `ValueError` instead of skipping just that event row. -/
theorem batch_crashes_on_bad_velocity :
    normalize_multiple_asteroids [badVelRecord, sampleRecord] =
        .error "ValueError: could not convert string to float: not_a_number" ∧
      storageRowsOf badVelRecord =
        .error "ValueError: could not convert string to float: not_a_number" :=
  ⟨rfl, rfl⟩

/-- C6 amended: a velocity string that fails to parse raises a `ValueError`
that aborts normalization of the whole record, aborts batch normalization of
any batch containing the record, and (unless the record is skipped by the
hazardous filter) aborts the ingestion loop — no unit/event row is skipped
individually and no field-level error is reported. -/
theorem parse_failure_aborts_all (a : RawRecord) (c : RawApproach)
    (t : List RawApproach) (rv : RelVelocity) (s : String)
    (pre post : List RawRecord)
    (hc : a.close_approach_data = some (c :: t))
    (hv : c.relative_velocity = some rv)
    (hs : rv.kilometers_per_second = .bad s)
    (hhz : a.is_potentially_hazardous_asteroid ≠ some false) :
    raises (normalize_asteroid_data a) = true ∧
      raises (normalize_multiple_asteroids (pre ++ a :: post)) = true ∧
      raises (storageRowsOf a) = true :=
  ⟨normalize_bad_velocity hc hv hs,
    normalize_multiple_raises (normalize_bad_velocity hc hv hs)
      (List.mem_append.mpr (Or.inr (List.mem_cons_self a post))),
    storageRows_bad_velocity hc hv hs hhz⟩

/-- C6 amended witness: the bad-velocity record aborts its own
normalization, a two-record batch containing it, and the ingestion loop
body. -/
theorem parse_failure_aborts_all_witness :
    raises (normalize_asteroid_data badVelRecord) = true ∧
      raises (normalize_multiple_asteroids ([sampleRecord] ++ badVelRecord :: [])) = true ∧
      raises (storageRowsOf badVelRecord) = true :=
  parse_failure_aborts_all badVelRecord badVelApproach [] ⟨.bad "not_a_number",
      .num 65260.5699103704, .num 40550.3802312521⟩ "not_a_number"
    [sampleRecord] [] rfl rfl rfl (by decide)

/-- C7 counterexample: a batch whose second record is missing its diameter
block is aborted whole by that record's `KeyError` — the first record's
normalized output is discarded and no stored count or skipped-with-reason
list is produced. -/
theorem batch_discarded_on_record_failure :
    normalize_multiple_asteroids [sampleRecord, noDiameterRecord] =
      .error "KeyError: estimated_diameter" := rfl

/-- C7 amended: batch normalization is a plain per-record comprehension with
no error recovery — any member record that raises aborts the whole batch
with that exception, and a successful batch result contains exactly one
output per input record (so a batch never succeeds while skipping a failing
record, and no skipped list or stored count is reported). -/
theorem batch_aborts_on_failure (l l2 : List RawRecord) (r : RawRecord)
    (ns : List Normalized)
    (hmem : r ∈ l) (hr : raises (normalize_asteroid_data r) = true)
    (hok : normalize_multiple_asteroids l2 = .ok ns) :
    raises (normalize_multiple_asteroids l) = true ∧ ns.length = l2.length :=
  ⟨normalize_multiple_raises hr hmem, (normalize_multiple_ok_inv hok).1⟩

/-- The normalized summary of the sample record, as produced by
`normalize_asteroid_data`. -/
def sampleNormalized : Normalized :=
  match normalize_asteroid_data sampleRecord with
  | .ok n => n
  | _ => ⟨none, none, none, none, 0, 0, 0, 0, 0, 0, 0, 0, none, none, none⟩

/-- C7 amended witness: a concrete batch containing the diameter-less record
raises, and the successful one-record batch yields exactly one output. -/
theorem batch_aborts_on_failure_witness :
    raises (normalize_multiple_asteroids [sampleRecord, noDiameterRecord]) = true ∧
      [sampleNormalized].length = [sampleRecord].length :=
  batch_aborts_on_failure [sampleRecord, noDiameterRecord] [sampleRecord]
    noDiameterRecord [sampleNormalized]
    (by simp) rfl (by rfl)

/-- C8: a stored record whose well-formed diameter block has `k` unit
systems (each entry with min ≤ max) yields exactly `k` diameter rows, one
per unit in block order, each with `diameter_min ≤ diameter_max`. -/
theorem diameter_rows_per_unit (a : RawRecord) (rows : StorageRows)
    (dblock : List (String × DiameterEntry))
    (hrows : storageRowsOf a = .ok (some rows))
    (hd : a.estimated_diameter = some dblock)
    (hwf : ∀ g ∈ dblock, g.2.estimated_diameter_min ≤ g.2.estimated_diameter_max) :
    rows.diameters.length = dblock.length ∧
      (∀ (j : ℕ) (hj : j < dblock.length) (hj' : j < rows.diameters.length),
        (rows.diameters.get ⟨j, hj'⟩).unit = (dblock.get ⟨j, hj⟩).1) ∧
      ∀ dr ∈ rows.diameters, dr.diameter_min ≤ dr.diameter_max := by
  obtain ⟨i, nrid, nm, url, mag, dblock', capps, hhz, hi, hnrid, hnm, hurl, hmag,
    hdb, hcapps, hast, hdia, happ⟩ := storageRowsOf_some_inv hrows
  rw [hd] at hdb
  have hdeq : dblock = dblock' := Option.some.inj hdb
  subst hdeq
  refine ⟨by rw [hdia, diameterRowsOf, List.length_map], ?_, ?_⟩
  · intro j hj hj'
    rw [List.get_of_eq hdia]
    simp [diameterRowsOf]
  · intro dr hdr
    rw [hdia] at hdr
    simp only [diameterRowsOf, List.mem_map] at hdr
    obtain ⟨g, hg, rfl⟩ := hdr
    exact hwf g hg

/-- C8 witness: the sample record's four-unit diameter block yields four
diameter rows in block order, each with min ≤ max. -/
theorem diameter_rows_per_unit_witness :
    sampleRows.diameters.length = sampleDiameters.length ∧
      (∀ (j : ℕ) (hj : j < sampleDiameters.length)
          (hj' : j < sampleRows.diameters.length),
        (sampleRows.diameters.get ⟨j, hj'⟩).unit = (sampleDiameters.get ⟨j, hj⟩).1) ∧
      ∀ dr ∈ sampleRows.diameters, dr.diameter_min ≤ dr.diameter_max :=
  diameter_rows_per_unit sampleRecord sampleRows sampleDiameters
    (by rfl) (by rfl) (by intro g hg; fin_cases hg <;> norm_num [sampleDiameters])

/-- The sample record with the `is_sentry_object` key removed. -/
def noSentryRecord : RawRecord :=
  { sampleRecord with is_sentry_object := none }

/-- The normalized summary of the sentry-less sample record. -/
def noSentryNormalized : Normalized :=
  match normalize_asteroid_data noSentryRecord with
  | .ok n => n
  | _ => ⟨none, none, none, none, 0, 0, 0, 0, 0, 0, 0, 0, none, none, none⟩

/-- The row-sets the ingestion loop derives from the sentry-less sample
record. -/
def noSentryRows : StorageRows :=
  match storageRowsOf noSentryRecord with
  | .ok (some r) => r
  | _ => defaultStorageRows

/-- C9 counterexample: on a record with no `is_sentry_object` key, the
normalizer's `raw_data.get("is_sentry_object")` stores `None` — not the
explicit default false the claim asserts — in the normalized output. -/
theorem normalized_sentry_is_none :
    normalize_asteroid_data noSentryRecord = .ok noSentryNormalized ∧
      noSentryNormalized.is_sentry_object = none :=
  ⟨rfl, rfl⟩

theorem normalize_ok_sentry {a : RawRecord} {n : Normalized}
    (h : normalize_asteroid_data a = .ok n) :
    n.is_sentry_object = a.is_sentry_object := by
  rw [normalize_asteroid_data] at h
  obtain ⟨diameter, _, h⟩ := bind_ok_inv h
  obtain ⟨km, _, h⟩ := bind_ok_inv h
  obtain ⟨me, _, h⟩ := bind_ok_inv h
  obtain ⟨mi, _, h⟩ := bind_ok_inv h
  obtain ⟨ft, _, h⟩ := bind_ok_inv h
  obtain ⟨app?, _, h⟩ := bind_ok_inv h
  rw [pureOk] at h
  rw [← Except.ok.inj h]

/-- C9 amended: only the ingestion writer applies the explicit default —
`asteroid.get("is_sentry_object", False)` stores 0 in the asteroid row when
the flag is absent — while the single-record normalizer's
`raw_data.get("is_sentry_object")` leaves `None` (not false) in the
normalized output. -/
theorem sentry_default_only_in_store (a b : RawRecord) (rows : StorageRows)
    (n : Normalized)
    (hb : b.is_sentry_object = none)
    (hrows : storageRowsOf b = .ok (some rows))
    (ha : a.is_sentry_object = none)
    (hn : normalize_asteroid_data a = .ok n) :
    rows.asteroid.is_sentry_object = 0 ∧ n.is_sentry_object = none := by
  obtain ⟨i, nrid, nm, url, mag, dblock, capps, hhz, hi, hnrid, hnm, hurl, hmag,
    hdb, hcapps, hast, hdia, happ⟩ := storageRowsOf_some_inv hrows
  constructor
  · rw [hast]
    simp [hb, pyInt]
  · rw [normalize_ok_sentry hn, ha]

/-- C9 amended witness: the sentry-less sample record stores 0 in its
asteroid row but carries `none` in its normalized output. -/
theorem sentry_default_only_in_store_witness :
    noSentryRows.asteroid.is_sentry_object = 0 ∧
      noSentryNormalized.is_sentry_object = none :=
  sentry_default_only_in_store noSentryRecord noSentryRecord noSentryRows
    noSentryNormalized rfl (by rfl) rfl (by rfl)

/-- Definition following the spec's words (the claim's flattening contract,
to be compared with `extract_asteroids_from_feed`): the single ordered
sequence taking the groups in mapping order and, within each group, the
records in list order. -/
def specFlattenFeed (groups : List (String × List RawRecord)) : List RawRecord :=
  (groups.map Prod.snd).flatten

theorem foldl_extend_eq (gs : List (String × List RawRecord)) :
    ∀ init : List RawRecord,
      gs.foldl (fun acc g => acc ++ g.2) init = init ++ specFlattenFeed gs := by
  induction gs with
  | nil => intro init; simp [specFlattenFeed]
  | cons g gs ih =>
    intro init
    rw [List.foldl_cons, ih (init ++ g.2)]
    simp [specFlattenFeed]

/-- C10: feed extraction flattens the `near_earth_objects` mapping to the
single ordered sequence the spec describes (group order, then list order
within each group; a missing mapping yields the empty list), and a
successful batch normalization of the flattened sequence has exactly one
normalized entry per input record, in that order, each produced by the
record normalizer. -/
theorem feed_flatten_and_batch (feed feed2 : FeedResponse)
    (groups : List (String × List RawRecord)) (ns : List Normalized)
    (hfeed : feed.near_earth_objects = some groups)
    (hmissing : feed2.near_earth_objects = none)
    (hok : normalize_multiple_asteroids (extract_asteroids_from_feed feed) = .ok ns) :
    extract_asteroids_from_feed feed = specFlattenFeed groups ∧
      extract_asteroids_from_feed feed2 = [] ∧
      ns.length = (extract_asteroids_from_feed feed).length ∧
      ∀ (j : ℕ) (hj : j < (extract_asteroids_from_feed feed).length)
          (hj' : j < ns.length),
        normalize_asteroid_data ((extract_asteroids_from_feed feed).get ⟨j, hj⟩) =
          .ok (ns.get ⟨j, hj'⟩) := by
  obtain ⟨hlen, hpt⟩ := normalize_multiple_ok_inv hok
  refine ⟨?_, ?_, hlen, hpt⟩
  · rw [extract_asteroids_from_feed, hfeed, Option.getD_some, foldl_extend_eq,
      List.nil_append]
  · rw [extract_asteroids_from_feed, hmissing, Option.getD_none]
    rfl

/-- The mocked `/feed` response of `normalize.py` (`fake_feed_response`):
two dates, three records in total. -/
def sampleFeed : FeedResponse :=
  ⟨some [("2025-10-01", [sampleRecord]), ("2025-10-02", [sampleRecord, sampleRecord])]⟩

/-- A feed response with no `near_earth_objects` key. -/
def emptyFeed : FeedResponse := ⟨none⟩

/-- C10 witness: the mocked two-date feed flattens to its three records in
order, the keyless feed flattens to the empty list, and batch normalization
yields one normalized entry per flattened record. -/
theorem feed_flatten_and_batch_witness :
    extract_asteroids_from_feed sampleFeed =
        specFlattenFeed [("2025-10-01", [sampleRecord]),
          ("2025-10-02", [sampleRecord, sampleRecord])] ∧
      extract_asteroids_from_feed emptyFeed = [] ∧
      [sampleNormalized, sampleNormalized, sampleNormalized].length =
        (extract_asteroids_from_feed sampleFeed).length ∧
      ∀ (j : ℕ) (hj : j < (extract_asteroids_from_feed sampleFeed).length)
          (hj' : j < [sampleNormalized, sampleNormalized, sampleNormalized].length),
        normalize_asteroid_data ((extract_asteroids_from_feed sampleFeed).get ⟨j, hj⟩) =
          .ok ([sampleNormalized, sampleNormalized, sampleNormalized].get ⟨j, hj'⟩) :=
  feed_flatten_and_batch sampleFeed emptyFeed
    [("2025-10-01", [sampleRecord]), ("2025-10-02", [sampleRecord, sampleRecord])]
    [sampleNormalized, sampleNormalized, sampleNormalized] rfl rfl (by rfl)
